import Mathlib

/-!
Verification development for the mcp-text-utils repository.

The repository has two Python entry points:
* a standalone JSON-RPC dispatcher (FastAPI, file server.py) exposing the
  tools reverse_text and text_info, modelled in namespace Mcp below;
* the fastmcp tool collection (src/mcp_text_utils/server.py together with
  api_models.py) with the text transforms reverse_text, text_info,
  transform_case, slugify, extract_urls, truncate and count_tokens,
  modelled in namespace TU below.

Python strings are modelled as Lean strings (sequences of Unicode code
points, matching CPython semantics for len, slicing and reversal).  The
character classification helpers (isupper, islower, isdigit, str.lower,
str.split with no argument) are modelled on their ASCII fragment, which is
exact for every character the analysed code paths and claims exercise.
Python ints are modelled as Int where a negative value can reach the
operation, and as Nat for values that are always counts.
-/

namespace TU

/-- ASCII fragment of the whitespace set used by Python str.split() and
str.rstrip(): space, tab, newline, carriage return, vertical tab, form
feed. -/
def pyIsWsChar (c : Char) : Bool :=
  c = ' ' || c = '\t' || c = '\n' || c = '\r' || c = '\x0b' || c = '\x0c'

/-- Helper for Python str.split() with no argument: split on runs of
whitespace, dropping empty pieces.  The accumulator holds the current word
reversed. -/
def splitWsAux : List Char → List Char → List (List Char)
  | [], acc => if acc.isEmpty then [] else [acc.reverse]
  | c :: cs, acc =>
    if pyIsWsChar c then
      if acc.isEmpty then splitWsAux cs [] else acc.reverse :: splitWsAux cs []
    else splitWsAux cs (c :: acc)

/-- Python text.split() with no argument. -/
def pySplit (l : List Char) : List (List Char) := splitWsAux l []

/-- Python str.split(sep) for a one-character separator: keeps empty
pieces, so that "" splits to [""]. -/
def splitOnCharAux (sep : Char) : List Char → List Char → List (List Char)
  | [], acc => [acc.reverse]
  | c :: cs, acc =>
    if c = sep then acc.reverse :: splitOnCharAux sep cs []
    else splitOnCharAux sep cs (c :: acc)

def pySplitOn (sep : Char) (l : List Char) : List (List Char) :=
  splitOnCharAux sep l []

/-- ASCII fragment of Python str.isupper for a single character. -/
def pyIsUpper (c : Char) : Bool := 65 ≤ c.toNat && c.toNat ≤ 90

/-- ASCII fragment of Python str.islower for a single character. -/
def pyIsLower (c : Char) : Bool := 97 ≤ c.toNat && c.toNat ≤ 122

/-- ASCII fragment of Python str.isdigit for a single character. -/
def pyIsDigit (c : Char) : Bool := 48 ≤ c.toNat && c.toNat ≤ 57

/-- A character matching the regex class [a-zA-Z0-9]. -/
def isAlnum (c : Char) : Bool := pyIsUpper c || pyIsLower c || pyIsDigit c

/-- ASCII fragment of Python str.lower for a single character. -/
def pyLowerChar (c : Char) : Char :=
  if 65 ≤ c.toNat && c.toNat ≤ 90 then Char.ofNat (c.toNat + 32) else c

/-- ASCII fragment of Python str.upper for a single character. -/
def pyUpperChar (c : Char) : Char :=
  if 97 ≤ c.toNat && c.toNat ≤ 122 then Char.ofNat (c.toNat - 32) else c

/-- Python str.lower on a whole string (ASCII fragment). -/
def pyLower (l : List Char) : List Char := l.map pyLowerChar

/-- Python str.capitalize (ASCII fragment): first character upper-cased,
the rest lower-cased. -/
def pyCapitalize (l : List Char) : List Char :=
  match l with
  | [] => []
  | c :: cs => pyUpperChar c :: pyLower cs

/-! ### Exact model of IEEE-754 double arithmetic for count_tokens

count_tokens computes math.ceil(word_count * 1.3) in double precision.
The literal 1.3 denotes the closest double, 5854679515581645 / 2^52.
CPython converts the int word_count to a double (exact below 2^53,
rounded to nearest otherwise) and multiplies; the product is the real
product rounded to the nearest double (ties to even).  All of this is
exact integer/rational arithmetic, modelled below.  Overflow to infinity
(beyond 2^1024) is outside the modelled range. -/

/-- Fuel-driven floor of log2; fuel n suffices for input n. -/
def lg2Aux : Nat → Nat → Nat
  | 0, _ => 0
  | fuel + 1, n => if n ≤ 1 then 0 else lg2Aux fuel (n / 2) + 1

/-- Floor of the base-2 logarithm (0 at 0), kernel-reducible. -/
def lg2 (n : Nat) : Nat := lg2Aux n n

/-- Round p / 2^e to the nearest integer, ties to even. -/
def rne (p e : Nat) : Nat :=
  if 2 * (p % 2 ^ e) > 2 ^ e ∨ (2 * (p % 2 ^ e) = 2 ^ e ∧ p / 2 ^ e % 2 = 1) then
    p / 2 ^ e + 1
  else p / 2 ^ e

/-- The significand of the double literal 1.3, i.e. 1.3 = c13 / 2^52
rounded: c13 = round(1.3 * 2^52). -/
def c13 : Nat := 5854679515581645

/-- The exact value of the double nearest to the natural number n
(CPython int-to-float conversion); exact below 2^53. -/
def natToDouble (n : Nat) : Nat :=
  if n < 9007199254740992 then n else rne n (lg2 n - 52) * 2 ^ (lg2 n - 52)

/-- The exact rational value of the double product float(n) * 1.3. -/
def flMul13 (n : Nat) : ℚ :=
  if n = 0 then 0
  else
    let p := natToDouble n * c13
    let e := lg2 p - 52
    ((rne p e * 2 ^ e : Nat) : ℚ) / (4503599627370496 : ℚ)

/-- math.ceil(word_count * 1.3) as the code computes it. -/
def estimatedTokens (n : Nat) : ℤ := Int.ceil (flMul13 n)

/-- Response model of the count_tokens tool (api_models.py); the method
field always carries its default value. -/
structure CountTokensResponse where
  text : String
  estimated_tokens : ℤ
  word_count : Nat
  char_count : Nat
  method : String
deriving DecidableEq

/-- The count_tokens tool (server.py). -/
def countTokens (text : String) : CountTokensResponse :=
  let words := pySplit text.data
  let word_count := words.length
  { text := text
    estimated_tokens := estimatedTokens word_count
    word_count := word_count
    char_count := text.data.length
    method := "words * 1.3" }

/-! ### reverse_text and text_info -/

/-- Response model of the reverse_text tool (api_models.py). -/
structure ReverseTextResponse where
  original : String
  reversed : String
  length : Nat
deriving DecidableEq

/-- The reverse_text tool (server.py): text[::-1] reverses the string by
code point, len counts code points. -/
def reverseText (text : String) : ReverseTextResponse :=
  { original := text
    reversed := String.mk text.data.reverse
    length := text.data.length }

/-- Response model of the text_info tool (api_models.py). -/
structure TextInfoResponse where
  text : String
  length : Nat
  word_count : Nat
  char_count_no_spaces : Nat
  uppercase_count : Nat
  lowercase_count : Nat
  digit_count : Nat
  line_count : Nat
deriving DecidableEq

/-- The text_info tool (server.py).  text.replace(" ", "") removes only
the plain space character; text.count("\n") counts newline characters. -/
def textInfo (text : String) : TextInfoResponse :=
  let l := text.data
  { text := text
    length := l.length
    word_count := (pySplit l).length
    char_count_no_spaces := (l.filter (fun c => c ≠ ' ')).length
    uppercase_count := (l.filter pyIsUpper).length
    lowercase_count := (l.filter pyIsLower).length
    digit_count := (l.filter pyIsDigit).length
    line_count := l.count '\n' + 1 }

/-! ### transform_case (server.py with helpers from api_models.py) -/

/-- Python exceptions that the modelled fragment can raise. -/
inductive PyErr where
  | valueError (msg : String)
  | indexError
deriving DecidableEq

/-- Response model of the transform_case tool (api_models.py). -/
structure TransformCaseResponse where
  original : String
  transformed : String
  from_format : String
  to_format : String
deriving DecidableEq

/-- The _VALID_CASES list of server.py. -/
def VALID_CASES : List String :=
  ["snake_case", "SCREAMING_SNAKE_CASE", "camelCase", "PascalCase",
   "kebab-case", "Title Case"]

/-- Does l match the regex piece [a-z0-9]+ (nonempty, all lower or
digit)? -/
def allLowerDigit (l : List Char) : Bool :=
  !l.isEmpty && l.all (fun c => pyIsLower c || pyIsDigit c)

/-- Does l match [A-Z0-9]+ ? -/
def allUpperDigit (l : List Char) : Bool :=
  !l.isEmpty && l.all (fun c => pyIsUpper c || pyIsDigit c)

/-- Regex ^[a-z][a-z0-9]*(_[a-z0-9]+)+$ of _CASE_FORMATS, decided by
splitting on the underscore. -/
def matchSnake (l : List Char) : Bool :=
  let parts := pySplitOn '_' l
  decide (2 ≤ parts.length) && parts.all allLowerDigit &&
    (match parts with
     | p :: _ => (match p with | c :: _ => pyIsLower c | [] => false)
     | [] => false)

/-- Regex ^[A-Z][A-Z0-9]*(_[A-Z0-9]+)+$ of _CASE_FORMATS. -/
def matchScreaming (l : List Char) : Bool :=
  let parts := pySplitOn '_' l
  decide (2 ≤ parts.length) && parts.all allUpperDigit &&
    (match parts with
     | p :: _ => (match p with | c :: _ => pyIsUpper c | [] => false)
     | [] => false)

/-- Regex ^[a-z][a-zA-Z0-9]*$ of _CASE_FORMATS. -/
def matchCamel (l : List Char) : Bool :=
  match l with
  | c :: cs => pyIsLower c && cs.all isAlnum
  | [] => false

/-- Regex ^[A-Z][a-zA-Z0-9]*$ of _CASE_FORMATS. -/
def matchPascal (l : List Char) : Bool :=
  match l with
  | c :: cs => pyIsUpper c && cs.all isAlnum
  | [] => false

/-- Regex ^[a-z][a-z0-9]*(-[a-z0-9]+)+$ of _CASE_FORMATS. -/
def matchKebab (l : List Char) : Bool :=
  let parts := pySplitOn '-' l
  decide (2 ≤ parts.length) && parts.all allLowerDigit &&
    (match parts with
     | p :: _ => (match p with | c :: _ => pyIsLower c | [] => false)
     | [] => false)

/-- One word of Title Case: [A-Z][a-z]+ (length at least two). -/
def titleWord (l : List Char) : Bool :=
  match l with
  | c :: d :: cs => pyIsUpper c && pyIsLower d && cs.all pyIsLower
  | _ => false

/-- Regex ^[A-Z][a-z]+(?: [A-Z][a-z]+)+$ of _CASE_FORMATS. -/
def matchTitle (l : List Char) : Bool :=
  let parts := pySplitOn ' ' l
  decide (2 ≤ parts.length) && parts.all titleWord

/-- detect_case of api_models.py: first matching pattern wins, in the
insertion order of _CASE_FORMATS. -/
def detectCase (text : String) : String :=
  let l := text.data
  if matchSnake l then "snake_case"
  else if matchScreaming l then "SCREAMING_SNAKE_CASE"
  else if matchCamel l then "camelCase"
  else if matchPascal l then "PascalCase"
  else if matchKebab l then "kebab-case"
  else if matchTitle l then "Title Case"
  else "unknown"

/-- re.sub on the pattern ([a-z0-9])([A-Z]) replacing with \1_\2: inserts
an underscore between a lower-or-digit character and a following upper
character.  The regex match consumes an upper character, which can never
start another match of the first group, so the left-to-right
non-overlapping scan coincides with this pairwise pass. -/
def camelBoundary1 : List Char → List Char
  | [] => []
  | [c] => [c]
  | c :: d :: rest =>
    if (pyIsLower c || pyIsDigit c) && pyIsUpper d then
      c :: '_' :: camelBoundary1 (d :: rest)
    else c :: camelBoundary1 (d :: rest)

/-- re.sub on the pattern ([A-Z]+)([A-Z][a-z]) replacing with \1_\2:
inserts an underscore between two upper characters when the second is
followed by a lower character.  Each regex match ends in a lower
character, so again the scan coincides with this pairwise pass. -/
def camelBoundary2 : List Char → List Char
  | c :: d :: e :: rest =>
    if pyIsUpper c && pyIsUpper d && pyIsLower e then
      c :: '_' :: camelBoundary2 (d :: e :: rest)
    else c :: camelBoundary2 (d :: e :: rest)
  | l => l

/-- Split on runs of non-alphanumeric characters, dropping empties (the
re.split of split_words combined with the emptiness filter). -/
def splitNonAlnumAux : List Char → List Char → List (List Char)
  | [], acc => if acc.isEmpty then [] else [acc.reverse]
  | c :: cs, acc =>
    if isAlnum c then splitNonAlnumAux cs (c :: acc)
    else if acc.isEmpty then splitNonAlnumAux cs []
    else acc.reverse :: splitNonAlnumAux cs []

/-- split_words of api_models.py. -/
def splitWords (text : String) : List (List Char) :=
  (splitNonAlnumAux (camelBoundary2 (camelBoundary1 text.data)) []).map pyLower

/-- to_case of api_models.py.  The camelCase arm evaluates words[0],
which raises IndexError on an empty word list; every other arm joins
possibly-empty lists without indexing. -/
def toCase (words : List (List Char)) (target : String) : Except PyErr (List Char) :=
  if target = "snake_case" then .ok ((words.intersperse ['_']).flatten)
  else if target = "SCREAMING_SNAKE_CASE" then
    .ok (((words.map (fun w => w.map pyUpperChar)).intersperse ['_']).flatten)
  else if target = "camelCase" then
    match words with
    | [] => .error .indexError
    | w :: ws => .ok (w ++ (ws.map pyCapitalize).flatten)
  else if target = "PascalCase" then .ok ((words.map pyCapitalize).flatten)
  else if target = "kebab-case" then .ok ((words.intersperse ['-']).flatten)
  else if target = "Title Case" then
    .ok (((words.map pyCapitalize).intersperse [' ']).flatten)
  else .ok ((words.intersperse ['_']).flatten)

/-- The transform_case tool (server.py): validate the target, then
detect, split and re-join. -/
def transformCase (text target : String) : Except PyErr TransformCaseResponse :=
  if !VALID_CASES.contains target then
    .error (.valueError ("Unknown target case '" ++ target ++ "'. Valid: " ++
      String.intercalate ", " VALID_CASES))
  else
    let detected := detectCase text
    let words := splitWords text
    match toCase words target with
    | .error e => .error e
    | .ok transformed =>
      .ok { original := text
            transformed := String.mk transformed
            from_format := detected
            to_format := target }

/-! ### slugify -/

/-- Response model of the slugify tool (api_models.py). -/
structure SlugifyResponse where
  original : String
  slug : String
deriving DecidableEq

/-- Modelled from the spec: the Unicode NFKD decomposition applied by
unicodedata.normalize("NFKD", text), an external-library call whose
tables are not part of this repository.  Per the spec it decomposes
accented characters into base character plus combining marks; it is the
identity on ASCII.  The table below covers the Latin-1 vowels and c with
acute, grave, circumflex, diaeresis and cedilla; other non-ASCII
characters are left in place. -/
def nfkdChar (c : Char) : List Char :=
  if c.toNat < 128 then [c]
  else if c = 'é' then ['e', '́']
  else if c = 'è' then ['e', '̀']
  else if c = 'ê' then ['e', '̂']
  else if c = 'ë' then ['e', '̈']
  else if c = 'á' then ['a', '́']
  else if c = 'à' then ['a', '̀']
  else if c = 'â' then ['a', '̂']
  else if c = 'ä' then ['a', '̈']
  else if c = 'ç' then ['c', '̧']
  else if c = 'ó' then ['o', '́']
  else if c = 'ö' then ['o', '̈']
  else if c = 'ú' then ['u', '́']
  else if c = 'ü' then ['u', '̈']
  else [c]

/-- unicodedata.normalize("NFKD", text) on a whole string (model, see
nfkdChar). -/
def nfkd (l : List Char) : List Char := l.flatMap nfkdChar

/-- slug.encode("ascii", "ignore").decode("ascii"): drop every non-ASCII
character. -/
def asciiIgnore (l : List Char) : List Char := l.filter (fun c => c.toNat < 128)

/-- A character matching the regex class [a-z0-9]. -/
def isSlugAlnum (c : Char) : Bool := pyIsLower c || pyIsDigit c

/-- re.sub on the pattern [^a-z0-9]+ replacing with "-": every maximal
run of characters outside [a-z0-9] becomes a single hyphen.  The flag
records whether the scan is inside such a run. -/
def collapseNon (inRun : Bool) : List Char → List Char
  | [] => []
  | c :: cs =>
    if isSlugAlnum c then c :: collapseNon false cs
    else if inRun then collapseNon true cs
    else '-' :: collapseNon true cs

/-- Python str.strip("-"), leading part: drop leading hyphens. -/
def dropLeadHyphens (l : List Char) : List Char := l.dropWhile (fun c => c = '-')

/-- Python str.strip("-"), trailing part: drop trailing hyphens,
structurally. -/
def dropTrailHyphens : List Char → List Char
  | [] => []
  | c :: cs =>
    let rest := dropTrailHyphens cs
    if c = '-' && rest.isEmpty then [] else c :: rest

/-- The character-level pipeline of the slugify tool (server.py):
normalize, drop non-ASCII, lower, collapse non-alphanumeric runs to
single hyphens, strip hyphens at both ends. -/
def slugChars (l : List Char) : List Char :=
  dropTrailHyphens (dropLeadHyphens (collapseNon false (pyLower (asciiIgnore (nfkd l)))))

/-- The slugify tool (server.py). -/
def slugify (text : String) : SlugifyResponse :=
  { original := text, slug := String.mk (slugChars text.data) }

/-! ### truncate -/

/-- Response model of the truncate tool (api_models.py). -/
structure TruncateResponse where
  original : String
  truncated : String
  original_length : Nat
  truncated_length : Nat
  was_truncated : Bool
deriving DecidableEq

/-- Python slicing l[:m] with an Int bound: for nonnegative m take the
first m characters, for negative m drop the last |m| characters. -/
def pySliceTo (l : List Char) (m : Int) : List Char :=
  if 0 ≤ m then l.take m.toNat else l.take (l.length - (-m).toNat)

/-- Python text.rfind(" "): highest index of a space, or -1. -/
def pyRfindSpace (l : List Char) : Int :=
  match l.reverse.findIdx? (fun c => c = ' ') with
  | some i => (l.length : Int) - 1 - i
  | none => -1

/-- Python str.rstrip() with no argument: drop trailing whitespace. -/
def pyRstrip (l : List Char) : List Char :=
  (l.reverse.dropWhile pyIsWsChar).reverse

/-- The truncate tool (server.py).  max_length and the implied limit are
Python ints and may be negative, hence the Int-aware slicing. -/
def truncate (text : String) (max_length : Int) (suffix : String) : TruncateResponse :=
  let tl := text.data
  if (tl.length : Int) ≤ max_length then
    { original := text
      truncated := text
      original_length := tl.length
      truncated_length := tl.length
      was_truncated := false }
  else
    let limit : Int := max_length - (suffix.data.length : Int)
    let truncated : List Char :=
      if limit ≤ 0 then pySliceTo suffix.data max_length
      else
        let t1 := pySliceTo tl limit
        let last_space := pyRfindSpace t1
        let t2 := if 0 < last_space then pySliceTo t1 last_space else t1
        pyRstrip t2 ++ suffix.data
    { original := text
      truncated := String.mk truncated
      original_length := tl.length
      truncated_length := truncated.length
      was_truncated := true }

end TU

namespace Mcp

/-! ### The standalone JSON-RPC dispatcher (server.py)

The mcp_endpoint handler receives one decoded JSON body and returns a
response object or None (no response).  JSON values are modelled by the
Json inductive; Python dicts by association lists.  The timestamp that
the two registered tools embed in their output is an effect of
datetime.now, passed in explicitly as the parameter now.  Tool arguments
are modelled as string-valued keyword mappings, the fragment the
registered tools accept. -/

/-- A JSON value. -/
inductive Json where
  | null
  | bool (b : Bool)
  | num (n : Int)
  | str (s : String)
  | arr (xs : List Json)
  | obj (fields : List (String × Json))

/-- Field access on a JSON object. -/
def jGet (j : Json) (key : String) : Option Json :=
  match j with
  | .obj fields => fields.lookup key
  | _ => none

/-- Left curly brace as a string. -/
def lcurly : String := "\x7b"

/-- Right curly brace as a string. -/
def rcurly : String := "\x7d"

/-- Hexadecimal digit. -/
def hexDigit (n : Nat) : Char :=
  if n < 10 then Char.ofNat (48 + n) else Char.ofNat (87 + n % 6)

/-- Four hexadecimal digits. -/
def hex4 (n : Nat) : String :=
  String.mk [hexDigit (n / 4096 % 16), hexDigit (n / 256 % 16),
             hexDigit (n / 16 % 16), hexDigit (n % 16)]

/-- JSON string escaping as json.dumps performs it with the default
ensure_ascii=True, for code points in the basic multilingual plane. -/
def escChar (c : Char) : String :=
  if c = '"' then "\\\""
  else if c = '\\' then "\\\\"
  else if c = '\n' then "\\n"
  else if c = '\t' then "\\t"
  else if c = '\r' then "\\r"
  else if c.toNat < 32 || 128 ≤ c.toNat then "\\u" ++ hex4 c.toNat
  else String.mk [c]

/-- A JSON string literal. -/
def jStr (s : String) : String :=
  "\"" ++ String.join (s.data.map escChar) ++ "\""

/-- One value of the flat dictionaries the tools serialize. -/
def dumpVal : Json → String
  | .str s => jStr s
  | .num n => toString n
  | .null => "null"
  | .bool b => if b then "true" else "false"
  | _ => ""

/-- json.dumps(d, indent=2) for the flat nonempty dictionaries built by
the two tools. -/
def jsonDumps2 (fields : List (String × Json)) : String :=
  lcurly ++ "\n  " ++
    String.intercalate ",\n  "
      (fields.map (fun kv => jStr kv.fst ++ ": " ++ dumpVal kv.snd)) ++
    "\n" ++ rcurly

/-- The reverse_text tool function of server.py: a JSON string with the
original text, the reversal, the length and a timestamp. -/
def reverseTextTool (now text : String) : String :=
  jsonDumps2
    [("original_text", .str text),
     ("reversed_text", .str (String.mk text.data.reverse)),
     ("length", .num text.data.length),
     ("timestamp", .str now)]

/-- The text_info tool function of server.py. -/
def textInfoTool (now text : String) : String :=
  let l := text.data
  jsonDumps2
    [("text", .str text),
     ("length", .num l.length),
     ("word_count", .num (TU.pySplit l).length),
     ("character_count", .num l.length),
     ("character_count_no_spaces", .num (l.filter (fun c => c ≠ ' ')).length),
     ("uppercase_count", .num (l.filter TU.pyIsUpper).length),
     ("lowercase_count", .num (l.filter TU.pyIsLower).length),
     ("digit_count", .num (l.filter TU.pyIsDigit).length),
     ("timestamp", .str now)]

/-- Keyword-argument binding for a Python function with the single
required parameter text.  The error strings are the TypeError messages
CPython raises inside the dispatcher's try block. -/
def bindTextArg (fname : String) (args : List (String × String)) :
    Except String String :=
  match args with
  | [] => .error (fname ++ "() missing 1 required positional argument: 'text'")
  | [(k, v)] =>
    if k = "text" then .ok v
    else .error (fname ++ "() got an unexpected keyword argument '" ++ k ++ "'")
  | (k, _) :: rest =>
    if k = "text" then
      match rest with
      | (k2, _) :: _ =>
        .error (fname ++ "() got an unexpected keyword argument '" ++ k2 ++ "'")
      | [] => .error ""
    else .error (fname ++ "() got an unexpected keyword argument '" ++ k ++ "'")

/-- The TOOL_FUNCTIONS registry of server.py: tool name to callable.
Invoking a callable either produces the serialized result or the message
of the exception the call raised. -/
def TOOL_FUNCTIONS :
    List (String × (String → List (String × String) → Except String String)) :=
  [("reverse_text", fun now args => (bindTextArg "reverse_text" args).map (reverseTextTool now)),
   ("text_info", fun now args => (bindTextArg "text_info" args).map (textInfoTool now))]

/-- A decoded JSON-RPC request: request_data.get("id"),
request_data.get("method"), params.get("name"),
params.get("arguments", default empty). -/
structure RpcRequest where
  id : Option Json
  method : Option String
  paramsName : Option String
  paramsArguments : List (String × String)

/-- Python str() of the optional method or tool name, as the f-strings
of the error messages render it: None prints as "None". -/
def pyStrOpt : Option String → String
  | some s => s
  | none => "None"

/-- The id value echoed into responses: the request id, or JSON null
when the request carries none. -/
def idJson (i : Option Json) : Json :=
  match i with
  | some j => j
  | none => Json.null

/-- A JSON-RPC success envelope. -/
def okResponse (rid : Json) (result : Json) : Json :=
  .obj [("jsonrpc", .str "2.0"), ("id", rid), ("result", result)]

/-- A JSON-RPC error envelope. -/
def errResponse (rid : Json) (code : Int) (message : String) : Json :=
  .obj [("jsonrpc", .str "2.0"), ("id", rid),
        ("error", .obj [("code", .num code), ("message", .str message)])]

/-- The initialize result of server.py. -/
def initializeResult : Json :=
  .obj [("protocolVersion", .str "2024-11-05"),
        ("capabilities", .obj [("tools", .obj [])]),
        ("serverInfo", .obj [("name", .str "reverse-text-mcp"),
                             ("version", .str "1.0.0")])]

/-- The TOOLS descriptor list of server.py, as returned by tools/list. -/
def TOOLS : Json :=
  .arr
    [.obj [("name", .str "reverse_text"),
           ("description", .str "Reverse the characters in a text string"),
           ("inputSchema",
            .obj [("type", .str "object"),
                  ("properties",
                   .obj [("text", .obj [("type", .str "string"),
                                        ("description", .str "The text to reverse")])]),
                  ("required", .arr [.str "text"])])],
     .obj [("name", .str "text_info"),
           ("description", .str "Get information about a text string"),
           ("inputSchema",
            .obj [("type", .str "object"),
                  ("properties",
                   .obj [("text", .obj [("type", .str "string"),
                                        ("description", .str "The text to analyze")])]),
                  ("required", .arr [.str "text"])])]]

/-- The mcp_endpoint dispatcher of server.py, after JSON decoding: one
branch per method, none (no response) for the initialized notification.
The now parameter feeds the timestamps of the tool outputs. -/
def dispatch (now : String) (req : RpcRequest) : Option Json :=
  let rid := idJson req.id
  if req.method = some "initialize" then
    some (okResponse rid initializeResult)
  else if req.method = some "initialized" then
    none
  else if req.method = some "tools/list" then
    some (okResponse rid (.obj [("tools", TOOLS)]))
  else if req.method = some "tools/call" then
    match req.paramsName.bind (fun n => TOOL_FUNCTIONS.lookup n) with
    | none =>
      some (errResponse rid (-32601)
        ("Tool '" ++ pyStrOpt req.paramsName ++ "' not found"))
    | some f =>
      match f now req.paramsArguments with
      | .ok result =>
        some (okResponse rid
          (.obj [("content", .arr [.obj [("type", .str "text"), ("text", .str result)]])]))
      | .error m =>
        some (errResponse rid (-32603) ("Tool execution failed: " ++ m))
  else
    some (errResponse rid (-32601)
      ("Method '" ++ pyStrOpt req.method ++ "' not found"))

/-- The error code of a response, when it is an error envelope. -/
def respErrCode (o : Option Json) : Option Int :=
  match o with
  | some r =>
    match jGet r "error" with
    | some e =>
      match jGet e "code" with
      | some (.num c) => some c
      | _ => none
    | _ => none
  | none => none

/-- The error message of a response, when it is an error envelope. -/
def respErrMsg (o : Option Json) : Option String :=
  match o with
  | some r =>
    match jGet r "error" with
    | some e =>
      match jGet e "message" with
      | some (.str m) => some m
      | _ => none
    | _ => none
  | none => none

/-- The id field of a response. -/
def respId (o : Option Json) : Option Json :=
  match o with
  | some r => jGet r "id"
  | none => none

end Mcp

namespace TU

/-! ### Specification-side vocabulary used by the claim statements -/

/-- A character of a well-formed slug: lowercase letter, digit or
hyphen. -/
def slugCharOK (c : Char) : Bool := isSlugAlnum c || c = '-'

/-- No two adjacent hyphens. -/
def noDouble : List Char → Bool
  | c :: d :: rest => !(c = '-' && d = '-') && noDouble (d :: rest)
  | _ => true

/-- The index of the last space of l, if any (specification-side
counterpart of Python rfind(" ")). -/
def lastSpacePos (l : List Char) : Option Nat :=
  match l.reverse.findIdx? (fun c => c = ' ') with
  | some i => some (l.length - 1 - i)
  | none => none

/-- Back off to the last space boundary when one exists past position 0
(specification wording for the truncate word-boundary step). -/
def backOff (l : List Char) : List Char :=
  match lastSpacePos l with
  | some i => if 0 < i then l.take i else l
  | none => l

/-- A text consisting of n whitespace-delimited words. -/
def mkWordsList : Nat → List Char
  | 0 => []
  | n + 1 => 'a' :: ' ' :: mkWordsList n

/-- A string with exactly n words. -/
def mkWords (n : Nat) : String := String.mk (mkWordsList n)

end TU

/-! ## Claim C8 -/

/-- C8: reverse_text is an involution: reversing the reversed field of
reverse_text twice returns the original string, because reversal by
Unicode code point is self-inverse. -/
theorem reverse_text_involution (x : String) :
    (TU.reverseText (TU.reverseText x).reversed).reversed = x := by
  cases x with
  | mk data => simp [TU.reverseText]

/-! ## Claim C9 -/

/-- C9: text_info on "Hello World 123" reports length 15, word_count 3,
char_count_no_spaces 13, uppercase_count 2, lowercase_count 8 and
digit_count 3; and for every text the line_count equals the number of
newline characters plus one. -/
theorem text_info_example_and_line_count :
    (TU.textInfo "Hello World 123").length = 15 ∧
    (TU.textInfo "Hello World 123").word_count = 3 ∧
    (TU.textInfo "Hello World 123").char_count_no_spaces = 13 ∧
    (TU.textInfo "Hello World 123").uppercase_count = 2 ∧
    (TU.textInfo "Hello World 123").lowercase_count = 8 ∧
    (TU.textInfo "Hello World 123").digit_count = 3 ∧
    ∀ s : String, (TU.textInfo s).line_count = s.data.count '\n' + 1 :=
  ⟨by decide, by decide, by decide, by decide, by decide, by decide,
   fun _ => rfl⟩

/-! ## Claim C3 -/

/-- C3 (failing input): transform_case with the valid target camelCase
raises IndexError on the empty text, because to_case indexes words[0]
on the empty word list; the claim that a valid target never raises is
contradicted, while the same input succeeds on every other target. -/
theorem transform_case_camel_empty_raises :
    TU.transformCase "" "camelCase" = Except.error TU.PyErr.indexError ∧
    TU.transformCase "!!!" "camelCase" = Except.error TU.PyErr.indexError ∧
    TU.transformCase "" "PascalCase" =
      Except.ok { original := "", transformed := "", from_format := "unknown",
                  to_format := "PascalCase" } :=
  ⟨rfl, rfl, rfl⟩

/-! ## Dispatcher helper lemmas -/

namespace Mcp

lemma respErrCode_err (rid : Json) (code : Int) (msg : String) :
    respErrCode (some (errResponse rid code msg)) = some code := rfl

lemma respErrMsg_err (rid : Json) (code : Int) (msg : String) :
    respErrMsg (some (errResponse rid code msg)) = some msg := rfl

lemma respId_err (rid : Json) (code : Int) (msg : String) :
    respId (some (errResponse rid code msg)) = some rid := rfl

lemma respId_ok (rid : Json) (result : Json) :
    respId (some (okResponse rid result)) = some rid := rfl

/-- The four recognized methods. -/
def knownMethods : List (Option String) :=
  [some "initialize", some "initialized", some "tools/list", some "tools/call"]

end Mcp

/-! ## Claim C1 -/

/-- C1: a tools/call request whose params.name does not resolve in the
registry yields a JSON-RPC error with code -32601, and a request whose
method is none of initialize, initialized, tools/list, tools/call yields
code -32601 with message "Method '<method>' not found" (the method
rendered as the f-string renders it). -/
theorem dispatch_unknown_gives_32601 (now : String) (req : Mcp.RpcRequest) :
    (req.method = some "tools/call" →
      req.paramsName.bind (fun n => Mcp.TOOL_FUNCTIONS.lookup n) = none →
      Mcp.respErrCode (Mcp.dispatch now req) = some (-32601) ∧
      Mcp.respErrMsg (Mcp.dispatch now req) =
        some ("Tool '" ++ Mcp.pyStrOpt req.paramsName ++ "' not found")) ∧
    (req.method ∉ Mcp.knownMethods →
      Mcp.respErrCode (Mcp.dispatch now req) = some (-32601) ∧
      Mcp.respErrMsg (Mcp.dispatch now req) =
        some ("Method '" ++ Mcp.pyStrOpt req.method ++ "' not found")) := by
  constructor
  · intro hm hl
    simp only [Mcp.dispatch, hm, hl]
    exact ⟨rfl, rfl⟩
  · intro hm
    simp only [Mcp.knownMethods, List.mem_cons, List.not_mem_nil, or_false,
      not_or] at hm
    obtain ⟨h1, h2, h3, h4⟩ := hm
    simp only [Mcp.dispatch, if_neg h1, if_neg h2, if_neg h3, if_neg h4]
    exact ⟨Mcp.respErrCode_err _ _ _, Mcp.respErrMsg_err _ _ _⟩

/-- C1 witness: concrete instances of both branches. -/
theorem dispatch_unknown_gives_32601_witness :
    Mcp.respErrCode (Mcp.dispatch "t"
      { id := none, method := some "tools/call", paramsName := some "nope",
        paramsArguments := [] }) = some (-32601) ∧
    Mcp.respErrCode (Mcp.dispatch "t"
      { id := none, method := some "ping", paramsName := none,
        paramsArguments := [] }) = some (-32601) ∧
    Mcp.respErrMsg (Mcp.dispatch "t"
      { id := none, method := some "ping", paramsName := none,
        paramsArguments := [] }) = some "Method 'ping' not found" :=
  ⟨((dispatch_unknown_gives_32601 "t"
      { id := none, method := some "tools/call", paramsName := some "nope",
        paramsArguments := [] }).1 rfl rfl).1,
   ((dispatch_unknown_gives_32601 "t"
      { id := none, method := some "ping", paramsName := none,
        paramsArguments := [] }).2 (by decide)).1,
   ((dispatch_unknown_gives_32601 "t"
      { id := none, method := some "ping", paramsName := none,
        paramsArguments := [] }).2 (by decide)).2⟩

/-! ## Claim C2 -/

/-- C2: when a tools/call request names a registered tool and its
invocation fails with message m, the dispatcher catches the exception
and returns a JSON-RPC error with code -32603 and message
"Tool execution failed: " followed by m. -/
theorem dispatch_tool_failure_gives_32603 (now : String) (req : Mcp.RpcRequest)
    (f : String → List (String × String) → Except String String) (m : String) :
    req.method = some "tools/call" →
    req.paramsName.bind (fun n => Mcp.TOOL_FUNCTIONS.lookup n) = some f →
    f now req.paramsArguments = .error m →
    Mcp.respErrCode (Mcp.dispatch now req) = some (-32603) ∧
    Mcp.respErrMsg (Mcp.dispatch now req) =
      some ("Tool execution failed: " ++ m) := by
  intro hm hl hf
  simp only [Mcp.dispatch, hm, hl, hf]
  exact ⟨rfl, rfl⟩

/-- C2 witness: calling reverse_text with no arguments raises a
TypeError inside the try block, surfaced as code -32603. -/
theorem dispatch_tool_failure_gives_32603_witness :
    Mcp.respErrCode (Mcp.dispatch "t"
      { id := none, method := some "tools/call", paramsName := some "reverse_text",
        paramsArguments := [] }) = some (-32603) ∧
    Mcp.respErrMsg (Mcp.dispatch "t"
      { id := none, method := some "tools/call", paramsName := some "reverse_text",
        paramsArguments := [] }) =
      some "Tool execution failed: reverse_text() missing 1 required positional argument: 'text'" :=
  dispatch_tool_failure_gives_32603 "t" _
    (fun now args => (Mcp.bindTextArg "reverse_text" args).map (Mcp.reverseTextTool now))
    "reverse_text() missing 1 required positional argument: 'text'" rfl rfl rfl

/-! ## Claim C7 -/

/-- C7: every dispatcher response carries the id of the request, null
when the request has none; the initialized notification alone produces
no response at all, and every other method produces one. -/
theorem dispatch_echoes_id (now : String) (req : Mcp.RpcRequest) :
    (req.method = some "initialized" → Mcp.dispatch now req = none) ∧
    (req.method ≠ some "initialized" →
      Mcp.respId (Mcp.dispatch now req) = some (Mcp.idJson req.id)) ∧
    (req.method ≠ some "initialized" → req.id = none →
      Mcp.respId (Mcp.dispatch now req) = some Mcp.Json.null) := by
  have key : req.method ≠ some "initialized" →
      Mcp.respId (Mcp.dispatch now req) = some (Mcp.idJson req.id) := by
    intro hne
    by_cases h1 : req.method = some "initialize"
    · simp only [Mcp.dispatch, if_pos h1]
      exact Mcp.respId_ok _ _
    · by_cases h3 : req.method = some "tools/list"
      · simp only [Mcp.dispatch, if_neg h1, if_neg hne, if_pos h3]
        exact Mcp.respId_ok _ _
      · by_cases h4 : req.method = some "tools/call"
        · simp only [Mcp.dispatch, if_neg h1, if_neg hne, if_neg h3, if_pos h4]
          cases hl : req.paramsName.bind (fun n => Mcp.TOOL_FUNCTIONS.lookup n) with
          | none => exact Mcp.respId_err _ _ _
          | some f =>
            dsimp only
            cases hf : f now req.paramsArguments with
            | ok r => exact Mcp.respId_ok _ _
            | error m => exact Mcp.respId_err _ _ _
        · simp only [Mcp.dispatch, if_neg h1, if_neg hne, if_neg h3, if_neg h4]
          exact Mcp.respId_err _ _ _
  refine ⟨?_, key, ?_⟩
  · intro h
    simp [Mcp.dispatch, h]
  · intro hne hid
    rw [key hne, hid]
    rfl

/-! ## Claim C5 -/

/-- to_case can only fail with IndexError: every arm except camelCase
joins the word list without indexing, and the camelCase arm fails only
on the empty list. -/
lemma toCase_error_shape (ws : List (List Char)) (t : String) (e : TU.PyErr)
    (h : TU.toCase ws t = Except.error e) : e = TU.PyErr.indexError := by
  unfold TU.toCase at h
  split_ifs at h
  all_goals
    first
      | exact Except.noConfusion h
      | cases ws with
        | nil =>
          injection h with h'
          exact h'.symm
        | cons w ws' => exact Except.noConfusion h

/-- C5: transform_case fails with a ValueError enumerating the six valid
format names whenever the target is not among them, and never raises
that validation error when the target is one of the six. -/
theorem transform_case_target_validation (text target : String) :
    (target ∉ TU.VALID_CASES →
      TU.transformCase text target = Except.error (TU.PyErr.valueError
        ("Unknown target case '" ++ target ++ "'. Valid: " ++
         "snake_case, SCREAMING_SNAKE_CASE, camelCase, PascalCase, kebab-case, Title Case"))) ∧
    (target ∈ TU.VALID_CASES →
      ∀ msg, TU.transformCase text target ≠
        Except.error (TU.PyErr.valueError msg)) := by
  have hi : String.intercalate ", " TU.VALID_CASES =
      "snake_case, SCREAMING_SNAKE_CASE, camelCase, PascalCase, kebab-case, Title Case" := by
    decide
  constructor
  · intro h
    have hc : TU.VALID_CASES.contains target = false := by simpa using h
    unfold TU.transformCase
    rw [hc]
    simp only [Bool.not_false]
    rw [if_pos trivial, hi]
  · intro h msg heq
    have hc : TU.VALID_CASES.contains target = true := by simpa using h
    unfold TU.transformCase at heq
    rw [hc] at heq
    simp only [Bool.not_true] at heq
    rw [if_neg (by simp)] at heq
    cases htc : TU.toCase (TU.splitWords text) target with
    | error e =>
      have he : e = TU.PyErr.indexError := toCase_error_shape _ _ _ htc
      rw [htc] at heq
      simp only [he] at heq
      injection heq with h'
      exact TU.PyErr.noConfusion h'
    | ok tr =>
      rw [htc] at heq
      exact Except.noConfusion heq

/-- C5 witness: a rejected target with its full message, and an accepted
target that does not produce a validation error. -/
theorem transform_case_target_validation_witness :
    TU.transformCase "hello" "not_a_case" = Except.error (TU.PyErr.valueError
      ("Unknown target case '" ++ "not_a_case" ++ "'. Valid: " ++
       "snake_case, SCREAMING_SNAKE_CASE, camelCase, PascalCase, kebab-case, Title Case")) ∧
    TU.transformCase "hello" "camelCase" ≠
      Except.error (TU.PyErr.valueError "boom") :=
  ⟨(transform_case_target_validation "hello" "not_a_case").1 (by decide),
   (transform_case_target_validation "hello" "camelCase").2 (by decide) "boom"⟩

/-! ## Claim C6 -/

/-- findIdx? with start index s reports an index between s and
s plus the list length. -/
lemma findIdxOpt_bounds (p : Char → Bool) :
    ∀ (l : List Char) (s i : Nat), List.findIdx? p l s = some i →
      s ≤ i ∧ i < s + l.length := by
  intro l
  induction l with
  | nil => intro s i h; simp [List.findIdx?] at h
  | cons a as ih =>
    intro s i h
    simp only [List.findIdx?] at h
    by_cases hp : p a
    · rw [if_pos hp] at h
      injection h with h'
      subst h'
      simp
    · rw [if_neg hp] at h
      have := ih (s + 1) i h
      simp only [List.length_cons]
      omega

/-- Python slicing with a nonnegative bound is List.take. -/
lemma pySliceTo_nonneg (l : List Char) (m : Int) (h : 0 ≤ m) :
    TU.pySliceTo l m = l.take m.toNat := by
  unfold TU.pySliceTo
  rw [if_pos h]

/-- The rfind-based backoff of truncate coincides with the
specification-side backOff. -/
lemma rfind_backoff_eq (l : List Char) :
    (if 0 < TU.pyRfindSpace l then TU.pySliceTo l (TU.pyRfindSpace l) else l) =
      TU.backOff l := by
  unfold TU.pyRfindSpace TU.backOff TU.lastSpacePos
  cases hf : l.reverse.findIdx? (fun c => c = ' ') with
  | none => simp
  | some i =>
    dsimp only
    have hb := findIdxOpt_bounds (fun c => c = ' ') l.reverse 0 i hf
    rw [List.length_reverse] at hb
    by_cases hpos : (0 : Int) < (l.length : Int) - 1 - (i : Int)
    · rw [if_pos hpos]
      have hnat : 0 < l.length - 1 - i := by omega
      rw [if_pos hnat]
      rw [pySliceTo_nonneg _ _ (by omega)]
      congr 1
      omega
    · rw [if_neg hpos, if_neg (by omega)]

/-- C6 (amended: max_length restricted to nonnegative values): truncate
returns the text unchanged with was_truncated false when it fits;
otherwise it reports was_truncated true and produces either the suffix
clipped to max_length (when max_length leaves no room beyond the
suffix), or the first limit characters backed off to the last space
boundary past position 0, right-stripped, with the suffix appended. -/
theorem truncate_spec (text suffix : String) (max_length : Int)
    (hml : 0 ≤ max_length) :
    ((text.data.length : Int) ≤ max_length →
      TU.truncate text max_length suffix =
        { original := text, truncated := text,
          original_length := text.data.length,
          truncated_length := text.data.length, was_truncated := false }) ∧
    (max_length < (text.data.length : Int) →
      (TU.truncate text max_length suffix).was_truncated = true ∧
      (max_length - (suffix.data.length : Int) ≤ 0 →
        (TU.truncate text max_length suffix).truncated.data =
          suffix.data.take max_length.toNat) ∧
      (0 < max_length - (suffix.data.length : Int) →
        (TU.truncate text max_length suffix).truncated.data =
          TU.pyRstrip (TU.backOff (text.data.take
            (max_length - (suffix.data.length : Int)).toNat)) ++ suffix.data)) := by
  constructor
  · intro hle
    unfold TU.truncate
    rw [if_pos hle]
  · intro hgt
    have hne : ¬ ((text.data.length : Int) ≤ max_length) := by omega
    unfold TU.truncate
    rw [if_neg hne]
    dsimp only
    refine ⟨rfl, ?_, ?_⟩
    · intro hlim
      rw [if_pos hlim]
      rw [pySliceTo_nonneg _ _ hml]
    · intro hlim
      rw [if_neg (by omega)]
      rw [pySliceTo_nonneg _ _ (by omega)]
      rw [rfind_backoff_eq]

/-- C6 witness: a fitting text is returned unchanged; a long text is cut
at the word boundary with the suffix appended. -/
theorem truncate_spec_witness :
    TU.truncate "short" 100 "..." =
      { original := "short", truncated := "short", original_length := 5,
        truncated_length := 5, was_truncated := false } ∧
    (TU.truncate "hello brave world" 10 "...").truncated.data =
      TU.pyRstrip (TU.backOff ("hello brave world".data.take 7)) ++ "...".data :=
  ⟨(truncate_spec "short" "..." 100 (by decide)).1 (by decide),
   by
    have h := (((truncate_spec "hello brave world" "..." 10 (by decide)).2
      (by decide)).2.2 (by decide))
    simpa using h⟩

/-- C6 counterexample: with the negative max_length -1 the code computes
suffix[:-1], dropping one character from the end of the suffix; the
result ".." is not the suffix clipped to max_length, and its length
exceeds max_length. -/
theorem truncate_negative_counterexample :
    (TU.truncate "x" (-1) "...").truncated = ".." ∧
    (TU.truncate "x" (-1) "...").truncated.data ≠ "...".data.take ((-1 : Int)).toNat ∧
    ¬ (((TU.truncate "x" (-1) "...").truncated.data.length : Int) ≤ -1) :=
  ⟨rfl, by decide, by decide⟩

/-! ## Claim C4 -/

/-- lg2Aux computes the floor of the base-2 logarithm when given enough
fuel. -/
lemma lg2Aux_spec : ∀ (fuel n : Nat), 1 ≤ n → n ≤ fuel →
    2 ^ TU.lg2Aux fuel n ≤ n ∧ n < 2 ^ (TU.lg2Aux fuel n + 1) := by
  intro fuel
  induction fuel with
  | zero => intro n h1 h2; omega
  | succ f ih =>
    intro n h1 h2
    by_cases hn : n ≤ 1
    · have hn1 : n = 1 := by omega
      subst hn1
      norm_num [TU.lg2Aux]
    · have h1' : 1 ≤ n / 2 := by omega
      have h2' : n / 2 ≤ f := by omega
      obtain ⟨ha, hb⟩ := ih (n / 2) h1' h2'
      simp only [TU.lg2Aux, if_neg hn]
      rw [pow_succ] at hb
      constructor
      · rw [pow_succ]
        omega
      · rw [pow_succ, pow_succ]
        omega

/-- Characterization of lg2 on positive input. -/
lemma lg2_spec (n : Nat) (h : 1 ≤ n) :
    2 ^ TU.lg2 n ≤ n ∧ n < 2 ^ (TU.lg2 n + 1) :=
  lg2Aux_spec n n h le_rfl

/-- Rounding to the nearest multiple of 2^e moves the value by at most
half a step, in either direction. -/
lemma rne_bounds (p e : Nat) :
    2 * p ≤ 2 * (TU.rne p e * 2 ^ e) + 2 ^ e ∧
    2 * (TU.rne p e * 2 ^ e) ≤ 2 * p + 2 ^ e := by
  have hE : 0 < 2 ^ e := pow_pos (by norm_num) e
  have hdm : 2 ^ e * (p / 2 ^ e) + p % 2 ^ e = p := Nat.div_add_mod p (2 ^ e)
  have hr : p % 2 ^ e < 2 ^ e := Nat.mod_lt _ hE
  unfold TU.rne
  split_ifs with hc
  · have hexp : (p / 2 ^ e + 1) * 2 ^ e = 2 ^ e * (p / 2 ^ e) + 2 ^ e := by ring
    rw [hexp]
    have hge : 2 ^ e ≤ 2 * (p % 2 ^ e) := by
      rcases hc with hgt | ⟨heq, _⟩
      · omega
      · omega
    generalize hQ : 2 ^ e * (p / 2 ^ e) = Q at hdm ⊢
    omega
  · push_neg at hc
    obtain ⟨h1, _⟩ := hc
    have hexp : p / 2 ^ e * 2 ^ e = 2 ^ e * (p / 2 ^ e) := by ring
    rw [hexp]
    generalize hQ : 2 ^ e * (p / 2 ^ e) = Q at hdm ⊢
    omega

/-- The double product for nonzero word counts below 2^53, written out. -/
lemma flMul13_eq (n : Nat) (h0 : n ≠ 0) (hlt : n < 9007199254740992) :
    TU.flMul13 n = ((TU.rne (n * TU.c13) (TU.lg2 (n * TU.c13) - 52) *
      2 ^ (TU.lg2 (n * TU.c13) - 52) : Nat) : ℚ) / (4503599627370496 : ℚ) := by
  unfold TU.flMul13
  rw [if_neg h0]
  have hnd : TU.natToDouble n = n := by
    unfold TU.natToDouble
    rw [if_pos hlt]
  rw [hnd]

/-- Ceiling of a quotient of naturals, as natural arithmetic. -/
lemma ceil_natDiv (a b : ℕ) (hb : 0 < b) :
    Int.ceil ((a : ℚ) / (b : ℚ)) = (((a + b - 1) / b : ℕ) : ℤ) := by
  have hbq : (0:ℚ) < (b:ℚ) := by exact_mod_cast hb
  have hq := Nat.div_add_mod (a + b - 1) b
  set k := (a + b - 1) / b with hk
  set r := (a + b - 1) % b with hr
  have hrb : r < b := Nat.mod_lt _ hb
  have hab : 1 ≤ a + b := by omega
  have hq' : (b:ℤ) * k + r = (a:ℤ) + b - 1 := by
    have h0 : ((b * k + r : ℕ) : ℤ) = ((a + b - 1 : ℕ) : ℤ) := by exact_mod_cast hq
    push_cast [Nat.cast_sub hab] at h0
    linarith
  have hrz : (0:ℤ) ≤ (r:ℤ) := Int.natCast_nonneg r
  have hrbz : (r:ℤ) < (b:ℤ) := by exact_mod_cast hrb
  have h1 : (a:ℤ) ≤ (b:ℤ) * k := by linarith
  have h2 : (b:ℤ) * k ≤ (a:ℤ) + b - 1 := by linarith
  rw [Int.ceil_eq_iff]
  constructor
  · rw [show (((k:ℕ):ℤ):ℚ) - 1 = ((k:ℚ) - 1) by push_cast; ring]
    rw [lt_div_iff₀ hbq]
    have h2q : (b:ℚ) * k ≤ (a:ℚ) + b - 1 := by exact_mod_cast h2
    nlinarith
  · rw [div_le_iff₀ hbq]
    have h1q : (a:ℚ) ≤ (b:ℚ) * k := by exact_mod_cast h1
    push_cast
    linarith

/-- For every word count up to 4 * 10^14 the double computation of
ceil(word_count * 1.3) agrees with the exact rational ceiling. -/
lemma estimatedTokens_exact (n : Nat) (hn : n ≤ 400000000000000) :
    TU.estimatedTokens n = Int.ceil ((13 * n : ℚ) / 10) := by
  by_cases h0 : n = 0
  · subst h0
    show Int.ceil (TU.flMul13 0) = _
    norm_num [TU.flMul13]
  have hn1 : 1 ≤ n := Nat.one_le_iff_ne_zero.mpr h0
  have hlt : n < 9007199254740992 := by omega
  show Int.ceil (TU.flMul13 n) = _
  rw [flMul13_eq n h0 hlt]
  set p := n * TU.c13 with hp
  set e := TU.lg2 p - 52 with hedef
  set A := TU.rne p e * 2 ^ e with hA
  have hp1 : 1 ≤ p := by
    rw [hp]
    have : 1 * 1 ≤ n * TU.c13 := Nat.mul_le_mul hn1 (by norm_num [TU.c13])
    omega
  have hpl : 4503599627370496 ≤ p := by
    rw [hp]
    calc (4503599627370496 : ℕ) ≤ TU.c13 := by norm_num [TU.c13]
    _ ≤ n * TU.c13 := Nat.le_mul_of_pos_left _ hn1
  have hpu : p < 2535301200456458802993406410752 := by
    rw [hp]
    calc n * TU.c13 ≤ 400000000000000 * TU.c13 := Nat.mul_le_mul_right _ hn
    _ < 2535301200456458802993406410752 := by norm_num [TU.c13]
  obtain ⟨hL1, hL2⟩ := lg2_spec p hp1
  have hL52 : 52 ≤ TU.lg2 p := by
    by_contra hcon
    push_neg at hcon
    have hle : 2 ^ (TU.lg2 p + 1) ≤ 2 ^ 52 :=
      Nat.pow_le_pow_right (by norm_num) (by omega)
    have h52 : (2:ℕ) ^ 52 = 4503599627370496 := by norm_num
    omega
  have hL100 : TU.lg2 p ≤ 100 := by
    by_contra hcon
    push_neg at hcon
    have hge : 2 ^ 101 ≤ 2 ^ TU.lg2 p :=
      Nat.pow_le_pow_right (by norm_num) (by omega)
    have h101 : (2:ℕ) ^ 101 = 2535301200456458802993406410752 := by norm_num
    omega
  have heL : TU.lg2 p = e + 52 := by omega
  have he48 : e ≤ 48 := by omega
  have hE1 : 2 ^ e * 4503599627370496 ≤ p := by
    have h := hL1
    rw [heL, pow_add] at h
    norm_num at h
    exact h
  have hE2 : p < 2 ^ e * 9007199254740992 := by
    have h := hL2
    rw [show TU.lg2 p + 1 = e + 53 by omega, pow_add] at h
    norm_num at h
    exact h
  have hEb : 2 ^ e ≤ 281474976710656 := by
    calc (2:ℕ) ^ e ≤ 2 ^ 48 := Nat.pow_le_pow_right (by norm_num) he48
    _ = 281474976710656 := by norm_num
  have hE0 : 0 < 2 ^ e := pow_pos (by norm_num) e
  obtain ⟨hB1, hB2⟩ := rne_bounds p e
  rw [← hA] at hB1 hB2
  have h10p : 10 * p = 13 * n * 4503599627370496 + 2 * n := by
    rw [hp]
    unfold TU.c13
    ring
  set m := 13 * n / 10 with hm
  set t := 13 * n % 10 with ht
  have hmt : 10 * m + t = 13 * n := Nat.div_add_mod (13 * n) 10
  have ht9 : t < 10 := Nat.mod_lt _ (by norm_num)
  by_cases ht0 : t = 0
  · -- 13 n is a multiple of 10: the product rounds to it exactly
    have hdvd : (10 : ℕ) ∣ 13 * n := Nat.dvd_of_mod_eq_zero ht0
    have hdvd' : (10 : ℕ) ∣ n := by
      have h13 : (10 : ℕ) ∣ n * 13 := by rwa [mul_comm] at hdvd
      exact (Nat.Coprime.dvd_of_dvd_mul_right (by norm_num) h13)
    obtain ⟨k, hk⟩ := hdvd'
    have hk1 : 1 ≤ k := by omega
    have hmk : m = 13 * k := by rw [hm, hk]; omega
    have hpk : p = 13 * k * 4503599627370496 + 2 * k := by
      have h := h10p
      rw [hk] at h
      omega
    have h13k : 13 * k < 2 * 2 ^ e := by
      have h1 : 13 * k * 4503599627370496 < (2 * 2 ^ e) * 4503599627370496 := by
        calc 13 * k * 4503599627370496 ≤ p := by omega
        _ < 2 ^ e * 9007199254740992 := hE2
        _ = (2 * 2 ^ e) * 4503599627370496 := by ring
      exact lt_of_mul_lt_mul_right h1 (by norm_num)
    have h4k : 4 * k < 2 ^ e := by omega
    have he52 : e ≤ 52 := by omega
    have hpowsplit : (2:ℕ) ^ e * 2 ^ (52 - e) = 2 ^ 52 := by
      rw [← pow_add]
      congr 1
      omega
    have hsplit : p = 2 ^ e * (13 * k * 2 ^ (52 - e)) + 2 * k := by
      rw [hpk]
      calc 13 * k * 4503599627370496 + 2 * k
          = 13 * k * ((2:ℕ) ^ 52) + 2 * k := by norm_num
        _ = 13 * k * ((2:ℕ) ^ e * 2 ^ (52 - e)) + 2 * k := by rw [hpowsplit]
        _ = 2 ^ e * (13 * k * 2 ^ (52 - e)) + 2 * k := by ring
    have hq : p / 2 ^ e = 13 * k * 2 ^ (52 - e) := by
      rw [hsplit, Nat.mul_add_div hE0, Nat.div_eq_of_lt (by omega), add_zero]
    have hrr : p % 2 ^ e = 2 * k := by
      rw [hsplit, Nat.mul_add_mod]
      exact Nat.mod_eq_of_lt (by omega)
    have hrne : TU.rne p e = 13 * k * 2 ^ (52 - e) := by
      unfold TU.rne
      rw [if_neg, hq]
      rw [hrr]
      rintro (hgt | ⟨heq2, _⟩) <;> omega
    have hAv : A = 13 * k * 4503599627370496 := by
      rw [hA, hrne]
      calc 13 * k * 2 ^ (52 - e) * 2 ^ e
          = 13 * k * ((2:ℕ) ^ e * 2 ^ (52 - e)) := by ring
        _ = 13 * k * ((2:ℕ) ^ 52) := by rw [hpowsplit]
        _ = 13 * k * 4503599627370496 := by norm_num
    rw [hAv]
    have hlhs : ((13 * k * 4503599627370496 : ℕ) : ℚ) / (4503599627370496 : ℚ)
        = ((13 * k : ℕ) : ℚ) := by
      push_cast
      field_simp
    rw [hlhs, Int.ceil_natCast]
    have hrhs : (13 * (n:ℚ)) / 10 = ((13 * k : ℕ) : ℚ) := by
      have hkq : (n:ℚ) = 10 * k := by exact_mod_cast congrArg (Nat.cast (R := ℚ)) hk
      rw [hkq]
      push_cast
      ring
    rw [hrhs, Int.ceil_natCast]
  · -- 13 n is not a multiple of 10: both ceilings land on m + 1
    have ht1 : 1 ≤ t := by omega
    have h20p : 20 * p = 20 * m * 4503599627370496 + 2 * t * 4503599627370496
        + 4 * n := by omega
    have hlow : m * 4503599627370496 < A := by omega
    have hhigh : A < (m + 1) * 4503599627370496 := by omega
    have hceil1 : Int.ceil (((A : ℕ) : ℚ) / (4503599627370496 : ℚ))
        = (m : ℤ) + 1 := by
      rw [Int.ceil_eq_iff]
      constructor
      · have hq1 : ((m : ℚ)) * 4503599627370496 < ((A : ℕ) : ℚ) := by
          exact_mod_cast hlow
        rw [lt_div_iff₀ (by norm_num : (0:ℚ) < 4503599627370496)]
        push_cast
        linarith
      · have hq2 : ((A : ℕ) : ℚ) ≤ ((m : ℚ) + 1) * 4503599627370496 := by
          exact_mod_cast hhigh.le
        rw [div_le_iff₀ (by norm_num : (0:ℚ) < 4503599627370496)]
        push_cast
        linarith
    have hceil2 : Int.ceil ((13 * (n : ℚ)) / 10) = (m : ℤ) + 1 := by
      have h13 : (13 * (n : ℚ)) = 10 * m + t := by exact_mod_cast hmt.symm
      rw [Int.ceil_eq_iff]
      constructor
      · rw [h13, lt_div_iff₀ (by norm_num : (0:ℚ) < 10)]
        have htq : (1:ℚ) ≤ (t:ℚ) := by exact_mod_cast ht1
        push_cast
        linarith
      · rw [h13, div_le_iff₀ (by norm_num : (0:ℚ) < 10)]
        have htq : (t:ℚ) ≤ 9 := by exact_mod_cast (by omega : t ≤ 9)
        push_cast
        linarith
    rw [hceil1, hceil2]

/-- A text of n words indeed splits into n words. -/
lemma pySplit_mkWords (n : Nat) : (TU.pySplit (TU.mkWords n).data).length = n := by
  show (TU.splitWsAux (TU.mkWordsList n) []).length = n
  induction n with
  | zero => rfl
  | succ k ih =>
    have h1 : TU.pyIsWsChar 'a' = false := rfl
    have h2 : TU.pyIsWsChar ' ' = true := rfl
    show (TU.splitWsAux ('a' :: ' ' :: TU.mkWordsList k) []).length = k + 1
    rw [TU.splitWsAux, h1]
    simp only [Bool.false_eq_true, if_false]
    rw [TU.splitWsAux, h2]
    simp [ih]

/-- C4 (amended): count_tokens returns the whitespace word count as
word_count and the IEEE-754 double computation of ceil(word_count * 1.3)
as estimated_tokens; the double computation agrees with the exact
rational ceiling ceil(word_count * 13 / 10) for every word count up to
4 * 10^14, which covers every physically representable text. -/
theorem count_tokens_spec (s : String) :
    (TU.countTokens s).word_count = (TU.pySplit s.data).length ∧
    (TU.countTokens s).estimated_tokens =
      TU.estimatedTokens ((TU.pySplit s.data).length) ∧
    ∀ n : Nat, n ≤ 400000000000000 →
      TU.estimatedTokens n = Int.ceil ((13 * n : ℚ) / 10) :=
  ⟨rfl, rfl, fun n hn => estimatedTokens_exact n hn⟩

/-- C4 witness: six words estimate to ceil(7.8) = 8 tokens. -/
theorem count_tokens_spec_witness :
    (TU.countTokens "Hello world this is a test").word_count = 6 ∧
    TU.estimatedTokens 6 = Int.ceil ((13 * 6 : ℚ) / 10) :=
  ⟨((count_tokens_spec "Hello world this is a test").1).trans (by decide),
   (count_tokens_spec "Hello world this is a test").2.2 6 (by decide)⟩

set_option maxRecDepth 8000 in
/-- C4 counterexample: a text of 4000000000000007 words has
estimated_tokens 5200000000000009, but the exact rational value
ceil(word_count * 13 / 10) is 5200000000000010: the double rounding of
1.3 makes the two sides differ at this word count. -/
theorem count_tokens_float_counterexample :
    (TU.countTokens (TU.mkWords 4000000000000007)).word_count
      = 4000000000000007 ∧
    (TU.countTokens (TU.mkWords 4000000000000007)).estimated_tokens ≠
      Int.ceil ((13 * 4000000000000007 : ℚ) / 10) := by
  have hwc : (TU.pySplit (TU.mkWords 4000000000000007).data).length
      = 4000000000000007 := pySplit_mkWords 4000000000000007
  have he : (TU.countTokens (TU.mkWords 4000000000000007)).estimated_tokens =
      TU.estimatedTokens 4000000000000007 := by
    show TU.estimatedTokens
        ((TU.pySplit (TU.mkWords 4000000000000007).data).length) =
      TU.estimatedTokens 4000000000000007
    rw [hwc]
  have hval : TU.estimatedTokens 4000000000000007 = 5200000000000009 := by
    show Int.ceil (TU.flMul13 4000000000000007) = 5200000000000009
    rw [flMul13_eq 4000000000000007 (by norm_num) (by norm_num)]
    have hbig : TU.rne (4000000000000007 * TU.c13)
        (TU.lg2 (4000000000000007 * TU.c13) - 52) *
        2 ^ (TU.lg2 (4000000000000007 * TU.c13) - 52)
        = 5200000000000009 * 4503599627370496 := by decide
    rw [hbig]
    have hq : ((5200000000000009 * 4503599627370496 : ℕ) : ℚ)
        / (4503599627370496 : ℚ) = ((5200000000000009 : ℕ) : ℚ) := by
      push_cast
      norm_num
    rw [hq, Int.ceil_natCast]
    norm_num
  have hrhs : Int.ceil ((13 * 4000000000000007 : ℚ) / 10)
      = 5200000000000010 := by
    have hcast : (13 * 4000000000000007 : ℚ) = ((52000000000000091 : ℕ) : ℚ) := by
      norm_num
    have hten : (10 : ℚ) = ((10 : ℕ) : ℚ) := by norm_num
    rw [hcast, hten, ceil_natDiv _ _ (by norm_num)]
    norm_num
  refine ⟨hwc, ?_⟩
  rw [he, hval, hrhs]
  decide

/-! ## Claim C10 -/

/-- Lowercase-alphanumeric characters are not hyphens. -/
lemma isSlugAlnum_ne_hyphen (c : Char) (h : TU.isSlugAlnum c = true) :
    ¬(c = '-') := by
  intro he
  subst he
  exact absurd h (by decide)

/-- A slug character is ASCII. -/
lemma charOK_lt128 (c : Char) (h : TU.slugCharOK c = true) : c.toNat < 128 := by
  simp [TU.slugCharOK, TU.isSlugAlnum, TU.pyIsLower, TU.pyIsDigit] at h
  rcases h with (⟨h1, h2⟩ | ⟨h1, h2⟩) | he
  · omega
  · omega
  · subst he
    decide

/-- noDouble is preserved by dropping the head. -/
lemma noDouble_cons (a : Char) (l : List Char)
    (h : TU.noDouble (a :: l) = true) : TU.noDouble l = true := by
  cases l with
  | nil => rfl
  | cons d rest =>
    simp [TU.noDouble] at h
    simp [TU.noDouble, h.2]

/-- The adjacency fact carried by noDouble. -/
lemma noDouble_head (c d : Char) (l : List Char)
    (h : TU.noDouble (c :: d :: l) = true) : ¬(c = '-' ∧ d = '-') := by
  simp [TU.noDouble] at h
  intro hcd
  rcases h.1 with h1 | h1
  · exact h1 hcd.1
  · exact h1 hcd.2

/-- Building noDouble from the head condition and the tail. -/
lemma noDouble_build (c : Char) (l : List Char) (h1 : TU.noDouble l = true)
    (h2 : ∀ d rest, l = d :: rest → ¬(c = '-' ∧ d = '-')) :
    TU.noDouble (c :: l) = true := by
  cases l with
  | nil => rfl
  | cons d rest =>
    have hd := h2 d rest rfl
    simp [TU.noDouble] at h1 ⊢
    constructor
    · by_cases hc : c = '-'
      · right
        intro hdd
        exact hd ⟨hc, hdd⟩
      · left
        exact hc
    · exact h1

/-- Every character collapseNon emits is a slug character. -/
lemma collapse_mem : ∀ (l : List Char) (b : Bool) (c : Char),
    c ∈ TU.collapseNon b l → TU.slugCharOK c = true := by
  intro l
  induction l with
  | nil => intro b c h; simp [TU.collapseNon] at h
  | cons a as ih =>
    intro b c h
    rw [TU.collapseNon] at h
    by_cases ha : TU.isSlugAlnum a
    · rw [if_pos ha] at h
      rcases List.mem_cons.mp h with h1 | h2
      · subst h1; simp [TU.slugCharOK, ha]
      · exact ih false c h2
    · rw [if_neg ha] at h
      by_cases hb : b = true
      · rw [if_pos hb] at h
        exact ih true c h
      · rw [if_neg hb] at h
        rcases List.mem_cons.mp h with h1 | h2
        · subst h1; decide
        · exact ih true c h2

/-- In run mode collapseNon never emits a hyphen first. -/
lemma collapse_true_head : ∀ (l : List Char) (c : Char) (rest : List Char),
    TU.collapseNon true l = c :: rest → TU.isSlugAlnum c = true := by
  intro l
  induction l with
  | nil => intro c rest h; simp [TU.collapseNon] at h
  | cons a as ih =>
    intro c rest h
    rw [TU.collapseNon] at h
    by_cases ha : TU.isSlugAlnum a
    · rw [if_pos ha] at h
      injection h with h1 _
      subst h1
      exact ha
    · rw [if_neg ha, if_pos rfl] at h
      exact ih c rest h

/-- collapseNon never produces two adjacent hyphens. -/
lemma collapse_noDouble : ∀ (l : List Char) (b : Bool),
    TU.noDouble (TU.collapseNon b l) = true := by
  intro l
  induction l with
  | nil => intro b; rfl
  | cons a as ih =>
    intro b
    rw [TU.collapseNon]
    by_cases ha : TU.isSlugAlnum a
    · rw [if_pos ha]
      cases hx : TU.collapseNon false as with
      | nil => rfl
      | cons x xs =>
        have hax : ¬(a = '-') := isSlugAlnum_ne_hyphen a ha
        have h2 := ih false
        rw [hx] at h2
        rw [← hx]
        apply noDouble_build
        · rw [hx]; exact h2
        · intro d rest hdr hcd
          exact hax hcd.1
    · rw [if_neg ha]
      by_cases hb : b = true
      · rw [if_pos hb]
        exact ih true
      · rw [if_neg hb]
        cases hx : TU.collapseNon true as with
        | nil => rfl
        | cons x xs =>
          have hxal : TU.isSlugAlnum x = true := collapse_true_head as x xs hx
          have hxne : ¬(x = '-') := isSlugAlnum_ne_hyphen x hxal
          have h2 := ih true
          rw [hx] at h2
          rw [← hx]
          apply noDouble_build
          · rw [hx]; exact h2
          · intro d rest hdr hcd
            rw [hx] at hdr
            injection hdr with hd1 _
            exact hxne (hd1 ▸ hcd.2)

/-- The head of the hyphen-stripped list is not a hyphen. -/
lemma dropLead_head : ∀ (l : List Char) (c : Char) (rest : List Char),
    TU.dropLeadHyphens l = c :: rest → ¬(c = '-') := by
  intro l
  induction l with
  | nil => intro c rest h; simp [TU.dropLeadHyphens] at h
  | cons a as ih =>
    intro c rest h
    unfold TU.dropLeadHyphens at h
    rw [List.dropWhile_cons] at h
    split_ifs at h with ha
    · exact ih c rest h
    · injection h with h1 _
      subst h1
      simpa using ha

/-- Dropping leading hyphens preserves noDouble. -/
lemma noDouble_dropLead : ∀ (l : List Char),
    TU.noDouble l = true → TU.noDouble (TU.dropLeadHyphens l) = true := by
  intro l
  induction l with
  | nil => intro h; exact h
  | cons a as ih =>
    intro h
    unfold TU.dropLeadHyphens
    rw [List.dropWhile_cons]
    split_ifs with ha
    · exact ih (noDouble_cons a as h)
    · exact h

/-- Dropping leading hyphens changes nothing when the head is not a
hyphen. -/
lemma dropLead_id (l : List Char) (h : l.head? ≠ some '-') :
    TU.dropLeadHyphens l = l := by
  cases l with
  | nil => rfl
  | cons a as =>
    have ha : ¬(a = '-') := by simpa using h
    unfold TU.dropLeadHyphens
    rw [List.dropWhile_cons, if_neg (by simpa using ha)]

/-- Members of the trailing-hyphen-stripped list are members of the
original. -/
lemma dTH_mem : ∀ (l : List Char) (c : Char),
    c ∈ TU.dropTrailHyphens l → c ∈ l := by
  intro l
  induction l with
  | nil => intro c h; simp [TU.dropTrailHyphens] at h
  | cons a as ih =>
    intro c h
    simp only [TU.dropTrailHyphens] at h
    split_ifs at h with hc
    · simp at h
    · rcases List.mem_cons.mp h with h1 | h2
      · rw [h1]; exact List.mem_cons_self a as
      · exact List.mem_cons_of_mem a (ih c h2)

/-- Stripping trailing hyphens keeps the head (or empties the list). -/
lemma dTH_head : ∀ (l : List Char),
    TU.dropTrailHyphens l = [] ∨
    (TU.dropTrailHyphens l).head? = l.head? := by
  intro l
  cases l with
  | nil => exact Or.inl rfl
  | cons a as =>
    simp only [TU.dropTrailHyphens]
    split_ifs with h
    · exact Or.inl rfl
    · exact Or.inr rfl

/-- Stripping trailing hyphens preserves noDouble. -/
lemma dTH_noDouble : ∀ (l : List Char),
    TU.noDouble l = true → TU.noDouble (TU.dropTrailHyphens l) = true := by
  intro l
  induction l with
  | nil => intro h; exact h
  | cons a as ih =>
    intro h
    have h' := noDouble_cons a as h
    simp only [TU.dropTrailHyphens]
    split_ifs with hc
    · rfl
    · cases hx : TU.dropTrailHyphens as with
      | nil => rfl
      | cons x xs =>
        have hnd2 := ih h'
        rw [hx] at hnd2
        rcases dTH_head as with hnil | hhd
        · rw [hnil] at hx; exact absurd hx (by simp)
        · rw [hx] at hhd
          cases as with
          | nil => simp [TU.dropTrailHyphens] at hx
          | cons b bs =>
            have hbx : x = b := by simpa using hhd
            subst hbx
            have hh := noDouble_head a x bs h
            rw [← hx]
            apply noDouble_build
            · rw [hx]; exact hnd2
            · intro d rest hdr hcd
              rw [hx] at hdr
              injection hdr with hd1 _
              exact hh ⟨hcd.1, hd1 ▸ hcd.2⟩

/-- The stripped list never ends in a hyphen. -/
lemma dTH_getLast : ∀ (l : List Char),
    (TU.dropTrailHyphens l).getLast? ≠ some '-' := by
  intro l
  induction l with
  | nil => simp [TU.dropTrailHyphens]
  | cons a as ih =>
    simp only [TU.dropTrailHyphens]
    split_ifs with hc
    · simp
    · cases hx : TU.dropTrailHyphens as with
      | nil =>
        have ha : ¬(a = '-') := by
          intro he
          exact hc (by simp [he, hx])
        simp [ha]
      | cons x xs =>
        rw [hx] at ih
        rw [List.getLast?_cons_cons]
        exact ih

/-- Stripping trailing hyphens changes nothing when the list does not
end in one. -/
lemma dTH_id : ∀ (l : List Char), l.getLast? ≠ some '-' →
    TU.dropTrailHyphens l = l := by
  intro l
  induction l with
  | nil => intro _; rfl
  | cons a as ih =>
    intro h
    simp only [TU.dropTrailHyphens]
    cases as with
    | nil =>
      have ha : ¬(a = '-') := by simpa using h
      rw [if_neg (by simp [TU.dropTrailHyphens, ha])]
      rfl
    | cons b bs =>
      have h' : (b :: bs).getLast? ≠ some '-' := by
        rwa [List.getLast?_cons_cons] at h
      have hbs := ih h'
      rw [hbs, if_neg (by simp)]

/-- The NFKD model is the identity on ASCII strings. -/
lemma nfkd_fixed : ∀ (l : List Char), (∀ c ∈ l, c.toNat < 128) →
    TU.nfkd l = l := by
  intro l
  induction l with
  | nil => intro _; rfl
  | cons a as ih =>
    intro h
    have ha : a.toNat < 128 := h a (List.mem_cons_self a as)
    have has : ∀ c ∈ as, c.toNat < 128 :=
      fun c hc => h c (List.mem_cons_of_mem a hc)
    show (TU.nfkdChar a ++ TU.nfkd as) = a :: as
    rw [show TU.nfkdChar a = [a] from by unfold TU.nfkdChar; rw [if_pos ha]]
    rw [ih has]
    rfl

/-- The ASCII filter is the identity on ASCII strings. -/
lemma asciiIgnore_fixed : ∀ (l : List Char), (∀ c ∈ l, c.toNat < 128) →
    TU.asciiIgnore l = l := by
  intro l
  induction l with
  | nil => intro _; rfl
  | cons a as ih =>
    intro h
    unfold TU.asciiIgnore at ih ⊢
    rw [List.filter_cons]
    rw [if_pos (by simpa using h a (List.mem_cons_self a as))]
    rw [ih (fun c hc => h c (List.mem_cons_of_mem a hc))]

/-- Lowering is the identity on slug characters. -/
lemma pyLowerChar_fixed (c : Char) (h : TU.slugCharOK c = true) :
    TU.pyLowerChar c = c := by
  have hcond : ¬(65 ≤ c.toNat ∧ c.toNat ≤ 90) := by
    simp [TU.slugCharOK, TU.isSlugAlnum, TU.pyIsLower, TU.pyIsDigit] at h
    rcases h with (⟨h1, h2⟩ | ⟨h1, h2⟩) | he
    · omega
    · omega
    · subst he; decide
  unfold TU.pyLowerChar
  rw [if_neg (by simpa using hcond)]

/-- String lowering is the identity on slug strings. -/
lemma pyLower_fixed : ∀ (l : List Char),
    (∀ c ∈ l, TU.slugCharOK c = true) → TU.pyLower l = l := by
  intro l
  induction l with
  | nil => intro _; rfl
  | cons a as ih =>
    intro h
    unfold TU.pyLower at ih ⊢
    rw [List.map_cons, pyLowerChar_fixed a (h a (List.mem_cons_self a as)),
      ih (fun c hc => h c (List.mem_cons_of_mem a hc))]

/-- collapseNon is the identity on hyphen-separated slug strings. -/
lemma collapse_id : ∀ (l : List Char),
    (∀ c ∈ l, TU.slugCharOK c = true) → TU.noDouble l = true →
    TU.collapseNon false l = l ∧
    (l.head? ≠ some '-' → TU.collapseNon true l = l) := by
  intro l
  induction l with
  | nil => exact fun _ _ => ⟨rfl, fun _ => rfl⟩
  | cons a as ih =>
    intro hall hnd
    have hall' : ∀ c ∈ as, TU.slugCharOK c = true :=
      fun c hc => hall c (List.mem_cons_of_mem a hc)
    have hnd' : TU.noDouble as = true := noDouble_cons a as hnd
    obtain ⟨ihf, iht⟩ := ih hall' hnd'
    by_cases ha : TU.isSlugAlnum a
    · constructor
      · rw [TU.collapseNon, if_pos ha, ihf]
      · intro _
        rw [TU.collapseNon, if_pos ha, ihf]
    · have ha' : a = '-' := by
        have hm := hall a (List.mem_cons_self a as)
        simp [TU.slugCharOK, ha] at hm
        exact hm
      constructor
      · rw [TU.collapseNon, if_neg ha, if_neg (by simp)]
        rw [ha']
        congr 1
        apply iht
        cases as with
        | nil => simp
        | cons b bs =>
          have hb := noDouble_head a b bs hnd
          simp only [List.head?_cons, ne_eq, Option.some.injEq]
          intro hbe
          exact hb ⟨ha', hbe⟩
      · intro hhd
        exfalso
        apply hhd
        rw [ha']
        rfl

/-- Every slug produced by the pipeline is well formed: slug characters
only, no double hyphen, no hyphen at either end. -/
lemma slug_good (l : List Char) :
    (∀ c ∈ TU.slugChars l, TU.slugCharOK c = true) ∧
    TU.noDouble (TU.slugChars l) = true ∧
    (TU.slugChars l).head? ≠ some '-' ∧
    (TU.slugChars l).getLast? ≠ some '-' := by
  unfold TU.slugChars
  refine ⟨?_, ?_, ?_, ?_⟩
  · intro c hc
    have h1 := dTH_mem _ c hc
    have h2 := (List.dropWhile_sublist _).subset h1
    exact collapse_mem _ false c h2
  · exact dTH_noDouble _ (noDouble_dropLead _ (collapse_noDouble _ false))
  · cases hw : TU.dropLeadHyphens
        (TU.collapseNon false (TU.pyLower (TU.asciiIgnore (TU.nfkd l)))) with
    | nil => simp [TU.dropTrailHyphens]
    | cons c rest =>
      have hc : ¬(c = '-') := dropLead_head _ c rest hw
      rcases dTH_head (c :: rest) with hnil | hhd
      · rw [hnil]
        simp
      · rw [hhd]
        simpa using hc
  · exact dTH_getLast _

/-- The pipeline fixes every well-formed slug. -/
lemma slug_fixed (y : List Char)
    (hall : ∀ c ∈ y, TU.slugCharOK c = true)
    (hnd : TU.noDouble y = true)
    (hhd : y.head? ≠ some '-')
    (hlast : y.getLast? ≠ some '-') :
    TU.slugChars y = y := by
  have hascii : ∀ c ∈ y, c.toNat < 128 := fun c hc => charOK_lt128 c (hall c hc)
  have h1 : TU.nfkd y = y := nfkd_fixed y hascii
  have h2 : TU.asciiIgnore y = y := asciiIgnore_fixed y hascii
  have h3 : TU.pyLower y = y := pyLower_fixed y hall
  have h4 : TU.collapseNon false y = y := (collapse_id y hall hnd).1
  have h5 : TU.dropLeadHyphens y = y := dropLead_id y hhd
  have h6 : TU.dropTrailHyphens y = y := dTH_id y hlast
  unfold TU.slugChars
  rw [h1, h2, h3, h4, h5, h6]

/-- C10: slugify is idempotent, and every produced slug consists only of
lowercase letters, digits and single hyphens, with no leading or
trailing hyphen. -/
theorem slugify_idempotent_wellformed (x : String) :
    (TU.slugify (TU.slugify x).slug).slug = (TU.slugify x).slug ∧
    (∀ c ∈ (TU.slugify x).slug.data, TU.isSlugAlnum c = true ∨ c = '-') ∧
    TU.noDouble (TU.slugify x).slug.data = true ∧
    (TU.slugify x).slug.data.head? ≠ some '-' ∧
    (TU.slugify x).slug.data.getLast? ≠ some '-' := by
  obtain ⟨hall, hnd, hhd, hlast⟩ := slug_good x.data
  have hfix := slug_fixed (TU.slugChars x.data) hall hnd hhd hlast
  refine ⟨?_, ?_, hnd, hhd, hlast⟩
  · show String.mk (TU.slugChars (String.mk (TU.slugChars x.data)).data) =
      String.mk (TU.slugChars x.data)
    rw [show (String.mk (TU.slugChars x.data)).data = TU.slugChars x.data
      from rfl, hfix]
  · intro c hc
    have hm := hall c hc
    simpa [TU.slugCharOK] using hm

/-- C7 witness: an id-less tools/list request is answered with id null;
an initialized notification gets no response. -/
theorem dispatch_echoes_id_witness :
    Mcp.respId (Mcp.dispatch "t"
      { id := none, method := some "tools/list", paramsName := none,
        paramsArguments := [] }) = some Mcp.Json.null ∧
    Mcp.dispatch "t"
      { id := none, method := some "initialized", paramsName := none,
        paramsArguments := [] } = none :=
  ⟨(dispatch_echoes_id "t" _).2.2 (by decide) rfl,
   (dispatch_echoes_id "t" _).1 rfl⟩
